import Mathlib

/-! Shallow embedding of the GGSel marketplace monitor: per-entity watermarks
(last sale invoice id, last message id per chat, last chat count), snapshot
diffing, enrichment caches, and the poll cycle, modelled as pure functions
over an explicit state and an environment of fetch results. -/

namespace GGSelMonitor

/-- A sale entry from the seller-last-sales endpoint. -/
structure Sale where
  invoice_id : Nat
  deriving Repr, DecidableEq

/-- A chat message; only the ordering key matters for diffing. -/
structure Msg where
  id : Nat
  deriving Repr, DecidableEq

/-- A chat entry; `id_i` is the invoice/order number used for watermarking,
`product` the product id used for enrichment. -/
structure Chat where
  id_i : Nat
  product : Nat
  deriving Repr, DecidableEq

/-- The relevant content of a successful purchase-info response:
`buyer_info.email`, `amount`, `currency_type` (each possibly absent). -/
structure PurchaseInfo where
  email : Option String
  amount : Option Nat
  currency : Option String
  deriving Repr, DecidableEq

/-- Body of the seller-last-sales response. -/
structure SalesResponse where
  retval : Int
  sales : List Sale
  deriving Repr, DecidableEq

/-- An entry of the invoice cache (`invoiceCache`). -/
structure InvoiceData where
  invoice_id : Nat
  buyer_email : Option String
  order_amount : Option Nat
  currency_type : Option String
  deriving Repr, DecidableEq

/-- The events handed to the notification handlers. -/
inductive Event where
  | NewOrder (invoice_id : Nat) (buyer_email : Option String)
      (order_amount : Option Nat)
  | NewChat (id_i : Nat) (productName : Option String) (email : Option String)
  | NewMessages (id_i : Nat) (messageIds : List Nat)
  deriving Repr, DecidableEq

/-- The monitor's mutable state: running/initialized flags, the invoice
watermark, the chat-count watermark, the per-chat message watermarks, and
the two enrichment caches. -/
structure MonitorState where
  isRunning : Bool
  isInitialized : Bool
  lastSaleInvoiceId : Option Nat
  lastChatCount : Nat
  lastMessageIds : List (Nat × Nat)
  productCache : List (Nat × String)
  invoiceCache : List (Nat × InvoiceData)
  deriving Repr, DecidableEq

/-- One poll cycle's environment: the outcome of each external call.
`Except.error` models a thrown/failed request. -/
structure Env where
  token : Except Unit Unit
  salesResp : Except Unit SalesResponse
  chatsResp : Except Unit (List Chat)
  fetchMessages : Nat → Except Unit (List Msg)
  fetchInvoice : Nat → Except Unit PurchaseInfo
  fetchProductResp : Nat → Except Unit (Option String)

/-- Lookup in an association list keyed by `Nat` (a JS `Map.get`). -/
def lookupKV {α : Type} : List (Nat × α) → Nat → Option α
  | [], _ => none
  | (k, v) :: rest, q => if q = k then some v else lookupKV rest q

/-- Update/insert in an association list keyed by `Nat` (a JS `Map.set`). -/
def setKV {α : Type} : List (Nat × α) → Nat → α → List (Nat × α)
  | [], k, v => [(k, v)]
  | (k0, v0) :: rest, k, v =>
      if k0 = k then (k, v) :: rest else (k0, v0) :: setKV rest k v

/-- `Math.max` over a list of ids (the lists it is applied to are nonempty). -/
def listMax : List Nat → Nat
  | [] => 0
  | x :: rest => max x (listMax rest)

/-- Insertion step of the ascending sort used to model `Array.sort`. -/
def insertBy {α : Type} (key : α → Nat) (x : α) : List α → List α
  | [] => [x]
  | t :: rest =>
      if key x ≤ key t then x :: t :: rest else t :: insertBy key x rest

/-- Ascending sort by a `Nat` key, modelling `sort((a, b) => key a - key b)`. -/
def sortBy {α : Type} (key : α → Nat) : List α → List α
  | [] => []
  | x :: rest => insertBy key x (sortBy key rest)

/-- Key of the last element (`arr[arr.length - 1]`), 0 on the empty list. -/
def lastKey {α : Type} (key : α → Nat) : List α → Nat
  | [] => 0
  | [a] => key a
  | _ :: b :: rest => lastKey key (b :: rest)

/-- `messages.sort((a, b) => a.id - b.id)`. -/
def sortMsgs (l : List Msg) : List Msg := sortBy Msg.id l

/-- `newSales.sort((a, b) => a.invoice_id - b.invoice_id)`. -/
def sortSales (l : List Sale) : List Sale := sortBy Sale.invoice_id l

/-- `allMessages[allMessages.length - 1].id` after the ascending sort. -/
def lastMsgId (l : List Msg) : Nat := lastKey Msg.id l

/-- `getChatBuyerEmail(token, chatId)`: returns the cached buyer email when a
cache entry with a non-null email exists; otherwise fetches the purchase
info, caching `{invoice_id, buyer_email}` on success and returning null
(without caching) on failure. -/
def getChatBuyerEmail (env : Env) (st : MonitorState) (chatId : Nat) :
    MonitorState × Option String :=
  match lookupKV st.invoiceCache chatId with
  | some d =>
    if d.buyer_email.isSome then (st, d.buyer_email)
    else
      match env.fetchInvoice chatId with
      | .ok info =>
          let entry : InvoiceData := ⟨chatId, info.email, none, none⟩
          let cache := setKV st.invoiceCache chatId entry
          ({ st with invoiceCache := cache }, info.email)
      | .error _ => (st, none)
  | none =>
      match env.fetchInvoice chatId with
      | .ok info =>
          let entry : InvoiceData := ⟨chatId, info.email, none, none⟩
          let cache := setKV st.invoiceCache chatId entry
          ({ st with invoiceCache := cache }, info.email)
      | .error _ => (st, none)

/-- `fetchProduct(token, productId)`: cached name if present; otherwise the
product fetch, which on success caches and returns `body.product.name` or
the fallback `Product <id>` when the name is absent, and on failure
rejects (models the thrown error) without caching. -/
def fetchProduct (env : Env) (st : MonitorState) (productId : Nat) :
    MonitorState × Except Unit String :=
  match lookupKV st.productCache productId with
  | some name => (st, .ok name)
  | none =>
    match env.fetchProductResp productId with
    | .error _ => (st, .error ())
    | .ok nameOpt =>
      let productName :=
        match nameOpt with
        | some n => n
        | none => "Product " ++ toString productId
      ({ st with productCache := setKV st.productCache productId productName },
       .ok productName)

/-- The body of the per-sale loop in `checkNewOrders`: consult the invoice
cache, otherwise fetch purchase info (caching an entry even when the fetch
fails, with null fields), and emit the `NewOrder` event. -/
def processSale (env : Env) (st : MonitorState) (sale : Sale) :
    MonitorState × Event :=
  match lookupKV st.invoiceCache sale.invoice_id with
  | some d => (st, .NewOrder sale.invoice_id d.buyer_email d.order_amount)
  | none =>
    match env.fetchInvoice sale.invoice_id with
    | .ok info =>
      let amt :=
        if info.amount.isSome ∧ info.currency.isSome then info.amount else none
      let cur :=
        if info.amount.isSome ∧ info.currency.isSome then info.currency
        else none
      let d : InvoiceData := ⟨sale.invoice_id, info.email, amt, cur⟩
      ({ st with invoiceCache := setKV st.invoiceCache sale.invoice_id d },
       .NewOrder sale.invoice_id info.email amt)
    | .error _ =>
      let d : InvoiceData := ⟨sale.invoice_id, none, none, none⟩
      ({ st with invoiceCache := setKV st.invoiceCache sale.invoice_id d },
       .NewOrder sale.invoice_id none none)

/-- The per-sale loop of `checkNewOrders` over the sorted new sales. -/
def processSales (env : Env) : MonitorState → List Sale →
    MonitorState × List Event
  | st, [] => (st, [])
  | st, s :: rest =>
    let p := processSale env st s
    let q := processSales env p.1 rest
    (q.1, p.2 :: q.2)

/-- `checkNewOrders(token)`: fetch last sales (all failures swallowed by the
surrounding try/catch); skip on soft error or empty list; initialize the
invoice watermark on first observation; otherwise, when initialized and
the batch max exceeds the watermark, emit the sales above the watermark in
ascending order and advance the watermark to the max of the new subset. -/
def checkNewOrders (st : MonitorState) (env : Env) :
    MonitorState × List Event :=
  match env.salesResp with
  | .error _ => (st, [])
  | .ok resp =>
    if resp.retval ≠ 0 then (st, [])
    else if resp.sales.isEmpty then (st, [])
    else
      let highestInvoiceInList := listMax (resp.sales.map Sale.invoice_id)
      match st.lastSaleInvoiceId with
      | none => ({ st with lastSaleInvoiceId := some highestInvoiceInList }, [])
      | some last =>
        if st.isInitialized ∧ last < highestInvoiceInList then
          let newSales := resp.sales.filter (fun s => last < s.invoice_id)
          let sorted := sortSales newSales
          let p := processSales env st sorted
          let highestNew := listMax (sorted.map Sale.invoice_id)
          ({ p.1 with lastSaleInvoiceId := some highestNew }, p.2)
        else (st, [])

/-- The new-chat branch of `poll` for one chat of the new prefix: enrich
product name and buyer email, fetch the chat's messages (failure treated
as no messages), emit `NewChat` (and `NewMessages` with all fetched
messages when any exist), and set the chat's message watermark to the
latest fetched id, or to 0 when none were fetched. -/
def processNewChat (env : Env) (st : MonitorState) (chat : Chat) :
    MonitorState × List Event :=
  let pr := fetchProduct env st chat.product
  let productName := pr.2.toOption
  let em := getChatBuyerEmail env pr.1 chat.id_i
  let msgs :=
    match env.fetchMessages chat.id_i with
    | .ok l => l
    | .error _ => []
  if msgs.isEmpty then
    ({ em.1 with lastMessageIds := setKV em.1.lastMessageIds chat.id_i 0 },
     [.NewChat chat.id_i productName em.2])
  else
    let sorted := sortMsgs msgs
    let latest := lastMsgId sorted
    ({ em.1 with lastMessageIds := setKV em.1.lastMessageIds chat.id_i latest },
     [.NewChat chat.id_i productName em.2,
      .NewMessages chat.id_i (sorted.map Msg.id)])

/-- The per-chat body of the message pass of `poll`: fetch messages (failure
caught, chat skipped), skip empty chats, seed the watermark on first sight
without emitting, and otherwise emit one batched `NewMessages` event with
the ids above the stored watermark and advance the watermark. -/
def processChatMessages (env : Env) (st : MonitorState) (chat : Chat) :
    MonitorState × List Event :=
  match env.fetchMessages chat.id_i with
  | .error _ => (st, [])
  | .ok l =>
    if l.isEmpty then (st, [])
    else
      let sorted := sortMsgs l
      let latest := lastMsgId sorted
      match lookupKV st.lastMessageIds chat.id_i with
      | none =>
        ({ st with lastMessageIds := setKV st.lastMessageIds chat.id_i latest },
         [])
      | some lastKnown =>
        if lastKnown < latest then
          let newMessages := sorted.filter (fun m => lastKnown < m.id)
          if newMessages.isEmpty then (st, [])
          else
            let pr := fetchProduct env st chat.product
            let em := getChatBuyerEmail env pr.1 chat.id_i
            let ids := setKV em.1.lastMessageIds chat.id_i latest
            ({ em.1 with lastMessageIds := ids },
             [.NewMessages chat.id_i (newMessages.map Msg.id)])
        else (st, [])

/-- The loop over the new-chat prefix. -/
def newChatLoop (env : Env) : MonitorState → List Chat →
    MonitorState × List Event
  | st, [] => (st, [])
  | st, c :: rest =>
    let p := processNewChat env st c
    let q := newChatLoop env p.1 rest
    (q.1, p.2 ++ q.2)

/-- The message pass over all chats of the current snapshot. -/
def messageLoop (env : Env) : MonitorState → List Chat →
    MonitorState × List Event
  | st, [] => (st, [])
  | st, c :: rest =>
    let p := processChatMessages env st c
    let q := messageLoop env p.1 rest
    (q.1, p.2 ++ q.2)

/-- The chat part of one poll cycle: the chat-count diff with its new-chat
prefix processing, the message pass over all chats, and the unconditional
chat-count overwrite. -/
def pollChats (env : Env) (st : MonitorState) (chats : List Chat) :
    MonitorState × List Event :=
  let nc :=
    if 0 < st.lastChatCount ∧ st.lastChatCount < chats.length then
      newChatLoop env st (chats.take (chats.length - st.lastChatCount))
    else (st, [])
  let mp := messageLoop env nc.1 chats
  ({ mp.1 with lastChatCount := chats.length }, nc.2 ++ mp.2)

/-- The try-block of `poll`: token acquisition, order check, chat fetch and
the chat/message passes; a token or chat-fetch failure falls through to
the surrounding catch with the mutations made so far kept. -/
def pollBody (st : MonitorState) (env : Env) : MonitorState × List Event :=
  match env.token with
  | .error _ => (st, [])
  | .ok _ =>
    let ord := checkNewOrders st env
    match env.chatsResp with
    | .error _ => ord
    | .ok chats =>
      let pc := pollChats env ord.1 chats
      (pc.1, ord.2 ++ pc.2)

/-- One full `poll()` cycle: no-op when stopped; otherwise run the body
(errors swallowed), mark the monitor initialized after the first cycle,
and report whether the next cycle gets scheduled. -/
def poll (st : MonitorState) (env : Env) :
    MonitorState × List Event × Bool :=
  if st.isRunning then
    let body := pollBody st env
    let stFinal :=
      if body.1.isInitialized then body.1
      else { body.1 with isInitialized := true }
    (stFinal, body.2, true)
  else (st, [], false)

theorem lookupKV_setKV_self {α : Type} (m : List (Nat × α)) (k : Nat) (v : α) :
    lookupKV (setKV m k v) k = some v := by
  induction m with
  | nil => simp [setKV, lookupKV]
  | cons p rest ih =>
    obtain ⟨k0, v0⟩ := p
    by_cases h : k0 = k
    · simp [setKV, h, lookupKV]
    · simp [setKV, h, lookupKV, Ne.symm h, ih]

theorem lookupKV_setKV_ne {α : Type} (m : List (Nat × α)) (k q : Nat) (v : α)
    (h : q ≠ k) : lookupKV (setKV m k v) q = lookupKV m q := by
  induction m with
  | nil => simp [setKV, lookupKV, h]
  | cons p rest ih =>
    obtain ⟨k0, v0⟩ := p
    by_cases h0 : k0 = k
    · subst h0
      simp [setKV, lookupKV, h]
    · simp only [setKV, if_neg h0, lookupKV]
      by_cases hq : q = k0
      · simp [hq]
      · simp [hq, ih]

theorem le_listMax (l : List Nat) (x : Nat) (h : x ∈ l) : x ≤ listMax l := by
  induction l with
  | nil => cases h
  | cons a rest ih =>
    rcases List.mem_cons.mp h with h1 | h2
    · subst h1; exact Nat.le_max_left _ _
    · exact le_trans (ih h2) (Nat.le_max_right _ _)

theorem listMax_mem (l : List Nat) (h : l ≠ []) : listMax l ∈ l := by
  induction l with
  | nil => cases h rfl
  | cons a rest ih =>
    cases rest with
    | nil => simp [listMax]
    | cons b rest2 =>
      rcases Nat.le_total a (listMax (b :: rest2)) with h2 | h2
      · rw [listMax, Nat.max_eq_right h2]
        exact List.mem_cons_of_mem _ (ih (by simp))
      · rw [listMax, Nat.max_eq_left h2]
        exact List.mem_cons_self _ _

theorem mem_insertBy {α : Type} (key : α → Nat) (x : α) (l : List α) (y : α) :
    y ∈ insertBy key x l ↔ y = x ∨ y ∈ l := by
  induction l with
  | nil => simp [insertBy]
  | cons t rest ih =>
    by_cases h : key x ≤ key t
    · simp [insertBy, h]
    · simp [insertBy, h, ih]
      tauto

theorem mem_sortBy {α : Type} (key : α → Nat) (l : List α) (y : α) :
    y ∈ sortBy key l ↔ y ∈ l := by
  induction l with
  | nil => simp [sortBy]
  | cons x rest ih =>
    simp [sortBy, mem_insertBy, ih]

/-- Ascending sortedness by a `Nat` key. -/
def sortedByKey {α : Type} (key : α → Nat) (l : List α) : Prop :=
  List.Chain' (fun a b => key a ≤ key b) l

theorem sortedByKey_insertBy {α : Type} (key : α → Nat) (x : α) (l : List α)
    (h : sortedByKey key l) : sortedByKey key (insertBy key x l) := by
  induction l with
  | nil => simp [insertBy, sortedByKey]
  | cons t rest ih =>
    by_cases hle : key x ≤ key t
    · simp only [insertBy, if_pos hle, sortedByKey, List.chain'_cons]
      exact ⟨hle, h⟩
    · have hlt : key t ≤ key x := le_of_lt (Nat.lt_of_not_le hle)
      simp only [insertBy, if_neg hle]
      cases rest with
      | nil =>
        simp [sortedByKey, insertBy, hlt]
      | cons b rest2 =>
        rw [sortedByKey, List.chain'_cons] at h
        have ih2 := ih h.2
        by_cases hb : key x ≤ key b
        · simp only [insertBy, if_pos hb, sortedByKey, List.chain'_cons]
          exact ⟨hlt, hb, h.2⟩
        · simp only [insertBy, if_neg hb] at ih2 ⊢
          rw [sortedByKey, List.chain'_cons]
          exact ⟨h.1, ih2⟩

theorem sortedByKey_sortBy {α : Type} (key : α → Nat) (l : List α) :
    sortedByKey key (sortBy key l) := by
  induction l with
  | nil => simp [sortBy, sortedByKey]
  | cons x rest ih => exact sortedByKey_insertBy key x _ ih

theorem le_lastKey_of_sorted {α : Type} (key : α → Nat) (l : List α)
    (h : sortedByKey key l) : ∀ y ∈ l, key y ≤ lastKey key l := by
  induction l with
  | nil => intro y hy; cases hy
  | cons a rest ih =>
    intro y hy
    cases rest with
    | nil =>
      rcases List.mem_cons.mp hy with h1 | h1
      · subst h1; simp [lastKey]
      · cases h1
    | cons b rest2 =>
      rw [sortedByKey, List.chain'_cons] at h
      have hlast : lastKey key (a :: b :: rest2) = lastKey key (b :: rest2) := by
        simp [lastKey]
      rw [hlast]
      rcases List.mem_cons.mp hy with h1 | h1
      · subst h1
        exact le_trans h.1 (ih h.2 b (List.mem_cons_self _ _))
      · exact ih h.2 y h1

theorem lastKey_mem {α : Type} (key : α → Nat) (l : List α) (h : l ≠ []) :
    ∃ y ∈ l, lastKey key l = key y := by
  induction l with
  | nil => cases h rfl
  | cons a rest ih =>
    cases rest with
    | nil => exact ⟨a, List.mem_cons_self _ _, rfl⟩
    | cons b rest2 =>
      obtain ⟨y, hy, hk⟩ := ih (by simp)
      refine ⟨y, List.mem_cons_of_mem _ hy, ?_⟩
      simpa [lastKey] using hk

/-- The invoice id carried by a `NewOrder` event. -/
def eventOrderId : Event → Option Nat
  | .NewOrder i _ _ => some i
  | _ => none

theorem fetchProduct_fields (env : Env) (st : MonitorState) (p : Nat) :
    ∃ pc, (fetchProduct env st p).1 = { st with productCache := pc } := by
  unfold fetchProduct
  split
  · exact ⟨st.productCache, rfl⟩
  · split
    · exact ⟨st.productCache, rfl⟩
    · exact ⟨_, rfl⟩

theorem getChatBuyerEmail_fields (env : Env) (st : MonitorState) (k : Nat) :
    ∃ ic, (getChatBuyerEmail env st k).1 = { st with invoiceCache := ic } := by
  unfold getChatBuyerEmail
  split
  · split
    · exact ⟨st.invoiceCache, rfl⟩
    · split
      · exact ⟨_, rfl⟩
      · exact ⟨st.invoiceCache, rfl⟩
  · split
    · exact ⟨_, rfl⟩
    · exact ⟨st.invoiceCache, rfl⟩

theorem processSale_fields (env : Env) (st : MonitorState) (s : Sale) :
    ∃ ic, (processSale env st s).1 = { st with invoiceCache := ic } := by
  unfold processSale
  split
  · exact ⟨st.invoiceCache, rfl⟩
  · split
    · exact ⟨_, rfl⟩
    · exact ⟨_, rfl⟩

theorem processSales_fields (env : Env) (st : MonitorState) (l : List Sale) :
    ∃ ic, (processSales env st l).1 = { st with invoiceCache := ic } := by
  induction l generalizing st with
  | nil => exact ⟨st.invoiceCache, rfl⟩
  | cons s rest ih =>
    obtain ⟨ic1, h1⟩ := processSale_fields env st s
    obtain ⟨ic2, h2⟩ := ih (processSale env st s).1
    refine ⟨ic2, ?_⟩
    simp only [processSales]
    rw [h2, h1]

theorem processSale_orderId (env : Env) (st : MonitorState) (s : Sale) :
    ∃ be oa, (processSale env st s).2 = Event.NewOrder s.invoice_id be oa := by
  unfold processSale
  split
  · exact ⟨_, _, rfl⟩
  · split
    · exact ⟨_, _, rfl⟩
    · exact ⟨_, _, rfl⟩

theorem processSales_orderIds (env : Env) (st : MonitorState) (l : List Sale) :
    ((processSales env st l).2).filterMap eventOrderId =
      l.map Sale.invoice_id := by
  induction l generalizing st with
  | nil => simp [processSales]
  | cons s rest ih =>
    obtain ⟨be, oa, h⟩ := processSale_orderId env st s
    simp [processSales, h, eventOrderId, ih]

theorem processSales_mem_shape (env : Env) (st : MonitorState) (l : List Sale)
    (e : Event) (he : e ∈ (processSales env st l).2) :
    ∃ s ∈ l, ∃ be oa, e = Event.NewOrder s.invoice_id be oa := by
  induction l generalizing st with
  | nil => simp [processSales] at he
  | cons s rest ih =>
    simp only [processSales, List.mem_cons] at he
    rcases he with he | he
    · obtain ⟨be, oa, h⟩ := processSale_orderId env st s
      exact ⟨s, List.mem_cons_self _ _, be, oa, by rw [he, h]⟩
    · obtain ⟨s2, hs2, be, oa, h⟩ := ih (processSale env st s).1 he
      exact ⟨s2, List.mem_cons_of_mem _ hs2, be, oa, h⟩

theorem processSales_state_eq (env : Env) (st : MonitorState) (l : List Sale) :
    (processSales env st l).1 =
      { st with invoiceCache := (processSales env st l).1.invoiceCache } := by
  obtain ⟨ic, h⟩ := processSales_fields env st l
  rw [h]

theorem checkNewOrders_fields (st : MonitorState) (env : Env) :
    ∃ ic sid, (checkNewOrders st env).1 =
      { st with invoiceCache := ic, lastSaleInvoiceId := sid } := by
  unfold checkNewOrders
  cases hs : env.salesResp with
  | error e => exact ⟨st.invoiceCache, st.lastSaleInvoiceId, rfl⟩
  | ok resp =>
    dsimp only
    by_cases hret : resp.retval ≠ 0
    · rw [if_pos hret]
      exact ⟨st.invoiceCache, st.lastSaleInvoiceId, rfl⟩
    rw [if_neg hret]
    by_cases hemp : resp.sales.isEmpty = true
    · rw [if_pos hemp]
      exact ⟨st.invoiceCache, st.lastSaleInvoiceId, rfl⟩
    rw [if_neg hemp]
    cases hl : st.lastSaleInvoiceId with
    | none => exact ⟨st.invoiceCache, _, rfl⟩
    | some last =>
      dsimp only
      by_cases hcond :
          st.isInitialized = true ∧ last < listMax (resp.sales.map Sale.invoice_id)
      · rw [if_pos hcond]
        obtain ⟨ic, h⟩ := processSales_fields env st
          (sortSales (resp.sales.filter (fun s => last < s.invoice_id)))
        refine ⟨ic, some (listMax ((sortSales
          (resp.sales.filter (fun s => last < s.invoice_id))).map Sale.invoice_id)), ?_⟩
        rw [h]
      · rw [if_neg hcond]
        exact ⟨st.invoiceCache, st.lastSaleInvoiceId, rfl⟩

theorem checkNewOrders_event_shape (st : MonitorState) (env : Env) (e : Event)
    (he : e ∈ (checkNewOrders st env).2) :
    ∃ i be oa, e = Event.NewOrder i be oa := by
  unfold checkNewOrders at he
  split at he
  · simp at he
  · split at he
    · simp at he
    split at he
    · simp at he
    split at he
    · simp at he
    dsimp only at he
    split at he
    · obtain ⟨s, _, be, oa, h⟩ := processSales_mem_shape _ _ _ _ he
      exact ⟨s.invoice_id, be, oa, h⟩
    · simp at he

theorem checkNewOrders_event_gt (st : MonitorState) (env : Env) (w : Nat)
    (hw : st.lastSaleInvoiceId = some w) (i : Nat) (be : Option String)
    (oa : Option Nat) (he : Event.NewOrder i be oa ∈ (checkNewOrders st env).2) :
    w < i := by
  unfold checkNewOrders at he
  split at he
  · simp at he
  · split at he
    · simp at he
    split at he
    · simp at he
    split at he
    · rename_i hnone
      rw [hw] at hnone
      cases hnone
    dsimp only at he
    split at he
    · rename_i resp _ _ last hsome _
      rw [hw] at hsome
      injection hsome with hlast
      obtain ⟨s, hs, be2, oa2, h⟩ := processSales_mem_shape _ _ _ _ he
      injection h with h1 _
      simp only [sortSales] at hs
      rw [mem_sortBy, List.mem_filter] at hs
      have hgt := hs.2
      simp at hgt
      subst hlast
      rw [h1]
      exact hgt
    · simp at he

theorem getChatBuyerEmail_lm (env : Env) (st : MonitorState) (k : Nat) :
    (getChatBuyerEmail env st k).1.lastMessageIds = st.lastMessageIds := by
  obtain ⟨ic, h⟩ := getChatBuyerEmail_fields env st k
  rw [h]

theorem fetchProduct_lm (env : Env) (st : MonitorState) (p : Nat) :
    (fetchProduct env st p).1.lastMessageIds = st.lastMessageIds := by
  obtain ⟨pc, h⟩ := fetchProduct_fields env st p
  rw [h]

theorem processNewChat_fields (env : Env) (st : MonitorState) (c : Chat) :
    ∃ pc ic lm, (processNewChat env st c).1 =
      { st with productCache := pc, invoiceCache := ic, lastMessageIds := lm } := by
  unfold processNewChat
  dsimp only
  obtain ⟨ic, hic⟩ :=
    getChatBuyerEmail_fields env (fetchProduct env st c.product).1 c.id_i
  obtain ⟨pc, hpc⟩ := fetchProduct_fields env st c.product
  split
  · dsimp only
    rw [hic]
    dsimp only
    rw [hpc]
    exact ⟨_, _, _, rfl⟩
  · dsimp only
    rw [hic]
    dsimp only
    rw [hpc]
    exact ⟨_, _, _, rfl⟩

theorem processNewChat_wm_other (env : Env) (st : MonitorState) (c : Chat)
    (k : Nat) (hk : k ≠ c.id_i) :
    lookupKV (processNewChat env st c).1.lastMessageIds k =
      lookupKV st.lastMessageIds k := by
  unfold processNewChat
  dsimp only
  split
  · dsimp only
    rw [getChatBuyerEmail_lm, fetchProduct_lm, lookupKV_setKV_ne _ _ _ _ hk]
  · dsimp only
    rw [getChatBuyerEmail_lm, fetchProduct_lm, lookupKV_setKV_ne _ _ _ _ hk]

theorem processNewChat_events (env : Env) (st : MonitorState) (c : Chat)
    (e : Event) (he : e ∈ (processNewChat env st c).2) :
    (∃ pn em, e = Event.NewChat c.id_i pn em) ∨
      (∃ ids, e = Event.NewMessages c.id_i ids) := by
  unfold processNewChat at he
  dsimp only at he
  split at he
  · rw [List.mem_singleton] at he
    exact Or.inl ⟨_, _, he⟩
  · simp only [List.mem_cons, List.not_mem_nil, or_false] at he
    rcases he with he | he
    · exact Or.inl ⟨_, _, he⟩
    · exact Or.inr ⟨_, he⟩

theorem newChatLoop_fields (env : Env) (st : MonitorState) (cs : List Chat) :
    ∃ pc ic lm, (newChatLoop env st cs).1 =
      { st with productCache := pc, invoiceCache := ic, lastMessageIds := lm } := by
  induction cs generalizing st with
  | nil => exact ⟨st.productCache, st.invoiceCache, st.lastMessageIds, rfl⟩
  | cons c rest ih =>
    obtain ⟨pc1, ic1, lm1, h1⟩ := processNewChat_fields env st c
    obtain ⟨pc2, ic2, lm2, h2⟩ := ih (processNewChat env st c).1
    refine ⟨pc2, ic2, lm2, ?_⟩
    simp only [newChatLoop]
    rw [h2, h1]

theorem newChatLoop_wm_other (env : Env) (st : MonitorState) (cs : List Chat)
    (k : Nat) (hk : k ∉ cs.map Chat.id_i) :
    lookupKV (newChatLoop env st cs).1.lastMessageIds k =
      lookupKV st.lastMessageIds k := by
  induction cs generalizing st with
  | nil => rfl
  | cons c rest ih =>
    simp only [List.map_cons, List.mem_cons, not_or] at hk
    simp only [newChatLoop]
    rw [ih _ hk.2, processNewChat_wm_other env st c k hk.1]

theorem newChatLoop_events (env : Env) (st : MonitorState) (cs : List Chat)
    (e : Event) (he : e ∈ (newChatLoop env st cs).2) :
    ∃ c ∈ cs, (∃ pn em, e = Event.NewChat c.id_i pn em) ∨
      (∃ ids, e = Event.NewMessages c.id_i ids) := by
  induction cs generalizing st with
  | nil => simp [newChatLoop] at he
  | cons c rest ih =>
    simp only [newChatLoop, List.mem_append] at he
    rcases he with he | he
    · exact ⟨c, List.mem_cons_self _ _, processNewChat_events env st c e he⟩
    · obtain ⟨c2, hc2, h⟩ := ih _ he
      exact ⟨c2, List.mem_cons_of_mem _ hc2, h⟩

theorem newChatLoop_no_order (env : Env) (st : MonitorState) (cs : List Chat)
    (i : Nat) (be : Option String) (oa : Option Nat) :
    Event.NewOrder i be oa ∉ (newChatLoop env st cs).2 := by
  intro he
  obtain ⟨c, _, h | h⟩ := newChatLoop_events env st cs _ he
  · obtain ⟨pn, em, h⟩ := h
    cases h
  · obtain ⟨ids, h⟩ := h
    cases h

theorem newChatLoop_msgs_mem (env : Env) (st : MonitorState) (cs : List Chat)
    (k : Nat) (ids : List Nat)
    (he : Event.NewMessages k ids ∈ (newChatLoop env st cs).2) :
    k ∈ cs.map Chat.id_i := by
  obtain ⟨c, hc, h | h⟩ := newChatLoop_events env st cs _ he
  · obtain ⟨pn, em, h⟩ := h
    cases h
  · obtain ⟨ids2, h⟩ := h
    injection h with h1 _
    rw [List.mem_map]
    exact ⟨c, hc, h1.symm⟩

theorem processChatMessages_fields (env : Env) (st : MonitorState) (c : Chat) :
    ∃ pc ic lm, (processChatMessages env st c).1 =
      { st with productCache := pc, invoiceCache := ic, lastMessageIds := lm } := by
  unfold processChatMessages
  dsimp only
  split
  · exact ⟨st.productCache, st.invoiceCache, st.lastMessageIds, rfl⟩
  split
  · exact ⟨st.productCache, st.invoiceCache, st.lastMessageIds, rfl⟩
  split
  · exact ⟨st.productCache, st.invoiceCache, _, rfl⟩
  split
  · split
    · exact ⟨st.productCache, st.invoiceCache, st.lastMessageIds, rfl⟩
    · obtain ⟨ic, hic⟩ :=
        getChatBuyerEmail_fields env (fetchProduct env st c.product).1 c.id_i
      obtain ⟨pc, hpc⟩ := fetchProduct_fields env st c.product
      dsimp only
      rw [hic]
      dsimp only
      rw [hpc]
      exact ⟨_, _, _, rfl⟩
  · exact ⟨st.productCache, st.invoiceCache, st.lastMessageIds, rfl⟩

theorem processChatMessages_wm_mono (env : Env) (st : MonitorState) (c : Chat)
    (k w : Nat) (hw : lookupKV st.lastMessageIds k = some w) :
    ∃ w2, lookupKV (processChatMessages env st c).1.lastMessageIds k = some w2 ∧
      w ≤ w2 := by
  unfold processChatMessages
  dsimp only
  split
  · exact ⟨w, hw, le_refl w⟩
  split
  · exact ⟨w, hw, le_refl w⟩
  split
  · rename_i hnone
    by_cases hk : k = c.id_i
    · rw [hk] at hw
      rw [hw] at hnone
      cases hnone
    · dsimp only
      rw [lookupKV_setKV_ne _ _ _ _ hk]
      exact ⟨w, hw, le_refl w⟩
  · rename_i lastKnown hsome
    split
    · rename_i hlt
      split
      · exact ⟨w, hw, le_refl w⟩
      · dsimp only
        rw [getChatBuyerEmail_lm, fetchProduct_lm]
        by_cases hk : k = c.id_i
        · subst hk
          rw [lookupKV_setKV_self]
          rw [hw] at hsome
          injection hsome with hwk
          refine ⟨_, rfl, ?_⟩
          rw [hwk]
          exact le_of_lt hlt
        · rw [lookupKV_setKV_ne _ _ _ _ hk]
          exact ⟨w, hw, le_refl w⟩
    · exact ⟨w, hw, le_refl w⟩

theorem processChatMessages_event (env : Env) (st : MonitorState) (c : Chat)
    (e : Event) (he : e ∈ (processChatMessages env st c).2) :
    ∃ lastKnown ids, lookupKV st.lastMessageIds c.id_i = some lastKnown ∧
      e = Event.NewMessages c.id_i ids ∧ ∀ i ∈ ids, lastKnown < i := by
  unfold processChatMessages at he
  dsimp only at he
  split at he
  · simp at he
  split at he
  · simp at he
  split at he
  · simp at he
  split at he
  · split at he
    · simp at he
    · rw [List.mem_singleton] at he
      rename_i l hemp sorted lastKnown hsome hlt hne
      refine ⟨lastKnown, _, hsome, he, ?_⟩
      intro i hi
      rw [List.mem_map] at hi
      obtain ⟨m, hm, rfl⟩ := hi
      have := (List.mem_filter.mp hm).2
      simpa using this
  · simp at he

theorem messageLoop_fields (env : Env) (st : MonitorState) (cs : List Chat) :
    ∃ pc ic lm, (messageLoop env st cs).1 =
      { st with productCache := pc, invoiceCache := ic, lastMessageIds := lm } := by
  induction cs generalizing st with
  | nil => exact ⟨st.productCache, st.invoiceCache, st.lastMessageIds, rfl⟩
  | cons c rest ih =>
    obtain ⟨pc1, ic1, lm1, h1⟩ := processChatMessages_fields env st c
    obtain ⟨pc2, ic2, lm2, h2⟩ := ih (processChatMessages env st c).1
    refine ⟨pc2, ic2, lm2, ?_⟩
    simp only [messageLoop]
    rw [h2, h1]

theorem messageLoop_wm_mono (env : Env) (st : MonitorState) (cs : List Chat)
    (k w : Nat) (hw : lookupKV st.lastMessageIds k = some w) :
    ∃ w2, lookupKV (messageLoop env st cs).1.lastMessageIds k = some w2 ∧
      w ≤ w2 := by
  induction cs generalizing st w with
  | nil => exact ⟨w, hw, le_refl w⟩
  | cons c rest ih =>
    obtain ⟨w1, h1, hle1⟩ := processChatMessages_wm_mono env st c k w hw
    obtain ⟨w2, h2, hle2⟩ := ih _ _ h1
    refine ⟨w2, ?_, le_trans hle1 hle2⟩
    simp only [messageLoop]
    exact h2

theorem messageLoop_no_order (env : Env) (st : MonitorState) (cs : List Chat)
    (i : Nat) (be : Option String) (oa : Option Nat) :
    Event.NewOrder i be oa ∉ (messageLoop env st cs).2 := by
  induction cs generalizing st with
  | nil => simp [messageLoop]
  | cons c rest ih =>
    simp only [messageLoop, List.mem_append]
    rintro (he | he)
    · obtain ⟨lk, ids, _, h, _⟩ := processChatMessages_event env st c _ he
      cases h
    · exact ih _ he

theorem messageLoop_event_gt (env : Env) (st : MonitorState) (cs : List Chat)
    (k w : Nat) (ids : List Nat)
    (hw : lookupKV st.lastMessageIds k = some w)
    (he : Event.NewMessages k ids ∈ (messageLoop env st cs).2) :
    ∀ i ∈ ids, w < i := by
  induction cs generalizing st w with
  | nil => simp [messageLoop] at he
  | cons c rest ih =>
    simp only [messageLoop, List.mem_append] at he
    rcases he with he | he
    · obtain ⟨lk, ids2, hsome, h, hgt⟩ := processChatMessages_event env st c _ he
      injection h with h1 h2
      subst h1
      subst h2
      rw [hw] at hsome
      injection hsome with h3
      intro i hi
      rw [h3]
      exact hgt i hi
    · obtain ⟨w1, h1, hle1⟩ := processChatMessages_wm_mono env st c k w hw
      intro i hi
      exact lt_of_le_of_lt hle1 (ih _ _ h1 he i hi)

theorem checkNewOrders_lm (st : MonitorState) (env : Env) :
    (checkNewOrders st env).1.lastMessageIds = st.lastMessageIds := by
  obtain ⟨ic, sid, h⟩ := checkNewOrders_fields st env
  rw [h]

theorem checkNewOrders_lastChatCount (st : MonitorState) (env : Env) :
    (checkNewOrders st env).1.lastChatCount = st.lastChatCount := by
  obtain ⟨ic, sid, h⟩ := checkNewOrders_fields st env
  rw [h]

theorem pollChats_no_order (env : Env) (st : MonitorState) (chats : List Chat)
    (i : Nat) (be : Option String) (oa : Option Nat) :
    Event.NewOrder i be oa ∉ (pollChats env st chats).2 := by
  unfold pollChats
  dsimp only
  split
  · rw [List.mem_append]
    rintro (he | he)
    · exact newChatLoop_no_order env st _ i be oa he
    · exact messageLoop_no_order env _ chats i be oa he
  · rw [List.nil_append]
    exact messageLoop_no_order env st chats i be oa

theorem pollChats_wm_mono (env : Env) (st : MonitorState) (chats : List Chat)
    (k w : Nat) (hw : lookupKV st.lastMessageIds k = some w)
    (hk : 0 < st.lastChatCount → st.lastChatCount < chats.length →
      k ∉ (chats.take (chats.length - st.lastChatCount)).map Chat.id_i) :
    ∃ w2, lookupKV (pollChats env st chats).1.lastMessageIds k = some w2 ∧
      w ≤ w2 := by
  unfold pollChats
  dsimp only
  split
  · rename_i hcond
    have hk2 := hk hcond.1 hcond.2
    have hpre := newChatLoop_wm_other env st
      (chats.take (chats.length - st.lastChatCount)) k hk2
    rw [hw] at hpre
    obtain ⟨w2, h2, hle⟩ := messageLoop_wm_mono env _ chats k w hpre
    exact ⟨w2, h2, hle⟩
  · obtain ⟨w2, h2, hle⟩ := messageLoop_wm_mono env st chats k w hw
    exact ⟨w2, h2, hle⟩

theorem pollChats_msg_gt (env : Env) (st : MonitorState) (chats : List Chat)
    (k w : Nat) (ids : List Nat)
    (hw : lookupKV st.lastMessageIds k = some w)
    (hk : 0 < st.lastChatCount → st.lastChatCount < chats.length →
      k ∉ (chats.take (chats.length - st.lastChatCount)).map Chat.id_i)
    (he : Event.NewMessages k ids ∈ (pollChats env st chats).2) :
    ∀ i ∈ ids, w < i := by
  unfold pollChats at he
  dsimp only at he
  split at he
  · rename_i hcond
    have hk2 := hk hcond.1 hcond.2
    rw [List.mem_append] at he
    rcases he with he | he
    · exact absurd (newChatLoop_msgs_mem env st _ k ids he) hk2
    · have hpre := newChatLoop_wm_other env st
        (chats.take (chats.length - st.lastChatCount)) k hk2
      rw [hw] at hpre
      exact messageLoop_event_gt env _ chats k w ids hpre he
  · rw [List.nil_append] at he
    exact messageLoop_event_gt env st chats k w ids hw he

theorem poll_stopped_state (st : MonitorState) (env : Env)
    (h : st.isRunning = false) : (poll st env).1 = st := by
  simp [poll, h]

theorem poll_stopped_events (st : MonitorState) (env : Env)
    (h : st.isRunning = false) : (poll st env).2.1 = [] := by
  simp [poll, h]

theorem poll_events_eq (st : MonitorState) (env : Env)
    (h : st.isRunning = true) : (poll st env).2.1 = (pollBody st env).2 := by
  unfold poll
  rw [if_pos h]

theorem poll_wm_eq (st : MonitorState) (env : Env) (h : st.isRunning = true) :
    (poll st env).1.lastMessageIds = (pollBody st env).1.lastMessageIds := by
  unfold poll
  rw [if_pos h]
  dsimp only
  split <;> rfl

theorem poll_sched (st : MonitorState) (env : Env) (h : st.isRunning = true) :
    (poll st env).2.2 = true := by
  unfold poll
  rw [if_pos h]

/-- Counterexample state for C1: chat 5 is already tracked with message
watermark 10, and one chat is known from the previous unread snapshot. -/
def stC1 : MonitorState := ⟨true, true, some 100, 1, [(5, 10)], [], []⟩

/-- Counterexample environment for C1: the unread chat list grew to two
entries with already-tracked chat 5 first, whose fetched messages are the
old messages 1 and 2. -/
def envC1 : Env :=
  { token := .ok ()
    salesResp := .ok ⟨0, []⟩
    chatsResp := .ok [⟨5, 7⟩, ⟨6, 7⟩]
    fetchMessages := fun c => if c = 5 then .ok [⟨1⟩, ⟨2⟩] else .ok []
    fetchInvoice := fun _ => .ok ⟨none, none, none⟩
    fetchProductResp := fun _ => .error () }

/-- C1 fails on the code: with chat 5 holding watermark 10 before the poll,
the new-chat path still emits a NewMessages event for chat 5 carrying the
messages 1 and 2, both of which are ≤ 10. -/
theorem c1_counterexample :
    lookupKV stC1.lastMessageIds 5 = some 10 ∧
    Event.NewMessages 5 [1, 2] ∈ (poll stC1 envC1).2.1 ∧
    1 ≤ 10 ∧ 2 ≤ 10 := by decide

/-- Counterexample state for C2: chat 5 tracked with watermark 10. -/
def stC2 : MonitorState := ⟨true, true, some 100, 1, [(5, 10)], [], []⟩

/-- Counterexample environment for C2: already-tracked chat 5 heads the grown
unread list and its message fetch fails. -/
def envC2 : Env :=
  { token := .ok ()
    salesResp := .ok ⟨0, []⟩
    chatsResp := .ok [⟨5, 7⟩, ⟨6, 7⟩]
    fetchMessages := fun _ => .error ()
    fetchInvoice := fun _ => .error ()
    fetchProductResp := fun _ => .error () }

/-- C2 fails on the code: the new-chat path resets chat 5's watermark from 10
down to 0 when its message fetch returns nothing. -/
theorem c2_counterexample :
    lookupKV stC2.lastMessageIds 5 = some 10 ∧
    lookupKV (poll stC2 envC2).1.lastMessageIds 5 = some 0 := by decide

/-- C1 as amended: within one poll, no NewOrder event is emitted for an
invoice id ≤ the invoice watermark recorded before the poll, and no
NewMessages event for a chat that the new-chat path does not touch in this
poll carries a message id ≤ that chat's pre-poll watermark. (The new-chat
path itself can re-emit ids ≤ an already-present watermark, as the
counterexample shows.) -/
theorem c1_amended (st : MonitorState) (env : Env) :
    (∀ w i be oa, st.lastSaleInvoiceId = some w →
      Event.NewOrder i be oa ∈ (poll st env).2.1 → w < i) ∧
    (∀ k w ids, lookupKV st.lastMessageIds k = some w →
      (∀ chats, env.chatsResp = Except.ok chats → 0 < st.lastChatCount →
        st.lastChatCount < chats.length →
        k ∉ (chats.take (chats.length - st.lastChatCount)).map Chat.id_i) →
      Event.NewMessages k ids ∈ (poll st env).2.1 → ∀ i ∈ ids, w < i) := by
  constructor
  · intro w i be oa hw he
    cases hrun : st.isRunning with
    | false =>
      rw [poll_stopped_events st env hrun] at he
      cases he
    | true =>
      rw [poll_events_eq st env hrun] at he
      unfold pollBody at he
      split at he
      · cases he
      · dsimp only at he
        split at he
        · exact checkNewOrders_event_gt st env w hw i be oa he
        · dsimp only at he
          rw [List.mem_append] at he
          rcases he with he | he
          · exact checkNewOrders_event_gt st env w hw i be oa he
          · exact absurd he (pollChats_no_order env _ _ i be oa)
  · intro k w ids hw hk he
    cases hrun : st.isRunning with
    | false =>
      rw [poll_stopped_events st env hrun] at he
      cases he
    | true =>
      rw [poll_events_eq st env hrun] at he
      unfold pollBody at he
      split at he
      · cases he
      · dsimp only at he
        split at he
        · obtain ⟨i2, be, oa, hsh⟩ := checkNewOrders_event_shape st env _ he
          cases hsh
        · rename_i chats heq
          dsimp only at he
          rw [List.mem_append] at he
          rcases he with he | he
          · obtain ⟨i2, be, oa, hsh⟩ := checkNewOrders_event_shape st env _ he
            cases hsh
          · have hw2 : lookupKV (checkNewOrders st env).1.lastMessageIds k =
                some w := by
              rw [checkNewOrders_lm]
              exact hw
            have hk2 : 0 < (checkNewOrders st env).1.lastChatCount →
                (checkNewOrders st env).1.lastChatCount < chats.length →
                k ∉ (chats.take
                  (chats.length - (checkNewOrders st env).1.lastChatCount)).map
                    Chat.id_i := by
              rw [checkNewOrders_lastChatCount]
              exact hk chats heq
            exact pollChats_msg_gt env _ chats k w ids hw2 hk2 he

/-- Witness state for the amended C1. -/
def stC1w : MonitorState := ⟨true, true, some 100, 1, [(5, 10)], [], []⟩

/-- Witness environment for the amended C1: a stable chat list whose chat 5
has the genuinely new messages 11 and 12. -/
def envC1w : Env :=
  { token := .ok ()
    salesResp := .ok ⟨0, []⟩
    chatsResp := .ok [⟨5, 7⟩]
    fetchMessages := fun c => if c = 5 then .ok [⟨11⟩, ⟨12⟩] else .ok []
    fetchInvoice := fun _ => .error ()
    fetchProductResp := fun _ => .error () }

theorem c1_amended_witness :
    lookupKV stC1w.lastMessageIds 5 = some 10 ∧
    Event.NewMessages 5 [11, 12] ∈ (poll stC1w envC1w).2.1 ∧
    10 < 11 := by
  refine ⟨by decide, by decide, ?_⟩
  refine (c1_amended stC1w envC1w).2 5 10 [11, 12] (by decide) ?_ (by decide)
    11 (by decide)
  intro chats hc h1 h2
  rw [show envC1w.chatsResp = Except.ok [(⟨5, 7⟩ : Chat)] from rfl] at hc
  injection hc with h3
  rw [← h3] at h2
  exact absurd h2 (by decide)

/-- C2 as amended: once present, a chat's message watermark never decreases
across a poll, provided the new-chat path does not touch that chat in this
poll (the counterexample shows the new-chat path can reset it downward). -/
theorem c2_amended (st : MonitorState) (env : Env) (k w : Nat)
    (hw : lookupKV st.lastMessageIds k = some w)
    (hk : ∀ chats, env.chatsResp = Except.ok chats → 0 < st.lastChatCount →
      st.lastChatCount < chats.length →
      k ∉ (chats.take (chats.length - st.lastChatCount)).map Chat.id_i) :
    ∃ w2, lookupKV (poll st env).1.lastMessageIds k = some w2 ∧ w ≤ w2 := by
  cases hrun : st.isRunning with
  | false =>
    rw [poll_stopped_state st env hrun]
    exact ⟨w, hw, le_refl w⟩
  | true =>
    rw [poll_wm_eq st env hrun]
    unfold pollBody
    split
    · exact ⟨w, hw, le_refl w⟩
    · dsimp only
      split
      · rw [checkNewOrders_lm]
        exact ⟨w, hw, le_refl w⟩
      · rename_i chats heq
        dsimp only
        have hw2 : lookupKV (checkNewOrders st env).1.lastMessageIds k =
            some w := by
          rw [checkNewOrders_lm]
          exact hw
        have hk2 : 0 < (checkNewOrders st env).1.lastChatCount →
            (checkNewOrders st env).1.lastChatCount < chats.length →
            k ∉ (chats.take
              (chats.length - (checkNewOrders st env).1.lastChatCount)).map
                Chat.id_i := by
          rw [checkNewOrders_lastChatCount]
          exact hk chats heq
        exact pollChats_wm_mono env _ chats k w hw2 hk2

/-- Witness state for the amended C2. -/
def stC2w : MonitorState := ⟨true, true, some 100, 1, [(5, 10)], [], []⟩

/-- Witness environment for the amended C2: stable chat list, chat 5 receives
message 11. -/
def envC2w : Env :=
  { token := .ok ()
    salesResp := .ok ⟨0, []⟩
    chatsResp := .ok [⟨5, 7⟩]
    fetchMessages := fun c => if c = 5 then .ok [⟨11⟩] else .ok []
    fetchInvoice := fun _ => .error ()
    fetchProductResp := fun _ => .error () }

theorem c2_amended_witness :
    lookupKV stC2w.lastMessageIds 5 = some 10 ∧
    ∃ w2, lookupKV (poll stC2w envC2w).1.lastMessageIds 5 = some w2 ∧
      10 ≤ w2 := by
  refine ⟨by decide, ?_⟩
  refine c2_amended stC2w envC2w 5 10 (by decide) ?_
  intro chats hc h1 h2
  rw [show envC2w.chatsResp = Except.ok [(⟨5, 7⟩ : Chat)] from rfl] at hc
  injection hc with h3
  rw [← h3] at h2
  exact absurd h2 (by decide)

/-- C3 scenario state: completed startup baseline with invoice watermark 100,
chat count 3, no per-chat message watermarks; the first Running-phase poll
has not completed yet. -/
def stC3 : MonitorState := ⟨true, false, some 100, 3, [], [], []⟩

/-- C3 scenario environment: poll 1 returns invoices 100 and 101, four chats
headed by the new chat 101, and messages 1 and 2 for chat 101. -/
def envC3 : Env :=
  { token := .ok ()
    salesResp := .ok ⟨0, [⟨100⟩, ⟨101⟩]⟩
    chatsResp := .ok [⟨101, 7⟩, ⟨90, 7⟩, ⟨91, 7⟩, ⟨92, 7⟩]
    fetchMessages := fun c => if c = 101 then .ok [⟨1⟩, ⟨2⟩] else .ok []
    fetchInvoice := fun _ => .ok ⟨some ("buyer@example.com"), some 5, some ("USD")⟩
    fetchProductResp := fun _ => .ok (some ("Prod")) }

/-- C3 fails on the code: the first poll emits no NewOrder at all (order
alerting is gated on the initialized flag, set only after the first poll
completes) and leaves the invoice watermark at 100, not 101. -/
theorem c3_counterexample :
    (poll stC3 envC3).2.1.filterMap eventOrderId = [] ∧
    (poll stC3 envC3).1.lastSaleInvoiceId = some 100 := by decide

/-- C3 as amended: in the scenario, the first poll emits exactly one NewChat
event for chat 101 and one NewMessages event for chat 101 with messages 1
and 2, but no NewOrder event; afterwards the invoice watermark is still
100 (NewOrder detection being suppressed until the first poll completes),
the chat count is 4 and the message watermark of chat 101 is 2. -/
theorem c3_amended :
    (poll stC3 envC3).2.1 =
      [Event.NewChat 101 (some ("Prod")) (some ("buyer@example.com")),
       Event.NewMessages 101 [1, 2]] ∧
    (poll stC3 envC3).1.lastSaleInvoiceId = some 100 ∧
    (poll stC3 envC3).1.lastChatCount = 4 ∧
    lookupKV (poll stC3 envC3).1.lastMessageIds 101 = some 2 := by decide

/-- C4: for an initialized monitor with invoice watermark 12, a sales fetch
returning invoice ids 9, 15, 20 emits NewOrder events exactly for 15 and
20, in that ascending order, and advances the watermark to 20 (the max of
the new subset). -/
theorem c4_max_of_new (st : MonitorState) (env : Env)
    (h1 : st.isInitialized = true) (h2 : st.lastSaleInvoiceId = some 12)
    (h3 : env.salesResp = Except.ok ⟨0, [⟨9⟩, ⟨15⟩, ⟨20⟩]⟩) :
    ((checkNewOrders st env).2).filterMap eventOrderId = [15, 20] ∧
    (checkNewOrders st env).1.lastSaleInvoiceId = some 20 := by
  unfold checkNewOrders
  rw [h3]
  dsimp only
  rw [if_neg (by decide), if_neg (by decide), h2]
  dsimp only
  rw [if_pos (by exact ⟨h1, by decide⟩)]
  dsimp only
  constructor
  · rw [processSales_orderIds]
    decide
  · decide

/-- Witness state for C4. -/
def stC4w : MonitorState := ⟨true, true, some 12, 0, [], [], []⟩

/-- Witness environment for C4. -/
def envC4w : Env :=
  { token := .ok ()
    salesResp := .ok ⟨0, [⟨9⟩, ⟨15⟩, ⟨20⟩]⟩
    chatsResp := .error ()
    fetchMessages := fun _ => .error ()
    fetchInvoice := fun _ => .error ()
    fetchProductResp := fun _ => .error () }

theorem c4_witness :
    ((checkNewOrders stC4w envC4w).2).filterMap eventOrderId = [15, 20] ∧
    (checkNewOrders stC4w envC4w).1.lastSaleInvoiceId = some 20 :=
  c4_max_of_new stC4w envC4w rfl rfl rfl

/-- C5: with an uninitialized invoice watermark and a non-empty sales fetch,
the watermark is seeded to the maximum invoice id of the batch and no
events are emitted. -/
theorem c5_cold_start (st : MonitorState) (env : Env) (sales : List Sale)
    (h1 : st.lastSaleInvoiceId = none)
    (h2 : env.salesResp = Except.ok ⟨0, sales⟩) (h3 : sales ≠ []) :
    checkNewOrders st env =
      ({ st with lastSaleInvoiceId := some (listMax (sales.map Sale.invoice_id)) }, []) ∧
    listMax (sales.map Sale.invoice_id) ∈ sales.map Sale.invoice_id ∧
    ∀ s ∈ sales, s.invoice_id ≤ listMax (sales.map Sale.invoice_id) := by
  refine ⟨?_, ?_, ?_⟩
  · unfold checkNewOrders
    rw [h2]
    dsimp only
    rw [if_neg (by decide)]
    rw [if_neg (by
      cases sales with
      | nil => exact absurd rfl h3
      | cons a l => simp)]
    rw [h1]
  · exact listMax_mem _ (by
      intro hmap
      exact h3 (List.map_eq_nil_iff.mp hmap))
  · intro s hs
    exact le_listMax _ _ (List.mem_map_of_mem _ hs)

/-- Witness state for C5. -/
def stC5w : MonitorState := ⟨true, false, none, 0, [], [], []⟩

/-- Witness environment for C5: first-ever fetch returns invoices 5, 8, 12. -/
def envC5w : Env :=
  { token := .ok ()
    salesResp := .ok ⟨0, [⟨5⟩, ⟨8⟩, ⟨12⟩]⟩
    chatsResp := .error ()
    fetchMessages := fun _ => .error ()
    fetchInvoice := fun _ => .error ()
    fetchProductResp := fun _ => .error () }

theorem c5_witness :
    checkNewOrders stC5w envC5w =
      ({ stC5w with lastSaleInvoiceId := some (listMax (([⟨5⟩, ⟨8⟩, ⟨12⟩] : List Sale).map Sale.invoice_id)) }, []) ∧
    listMax (([⟨5⟩, ⟨8⟩, ⟨12⟩] : List Sale).map Sale.invoice_id) ∈
      ([⟨5⟩, ⟨8⟩, ⟨12⟩] : List Sale).map Sale.invoice_id ∧
    ∀ s ∈ ([⟨5⟩, ⟨8⟩, ⟨12⟩] : List Sale),
      s.invoice_id ≤ listMax (([⟨5⟩, ⟨8⟩, ⟨12⟩] : List Sale).map Sale.invoice_id) :=
  c5_cold_start stC5w envC5w [⟨5⟩, ⟨8⟩, ⟨12⟩] rfl rfl (by decide)

/-- C6: the per-chat message diff: with stored watermark 100 and fetched ids
98, 101, 102, 105, exactly one NewMessages event is emitted carrying 101,
102, 105 in ascending order and the watermark advances to 105; an empty
fetch leaves the chat untouched; a chat without a stored watermark is
seeded to the highest fetched id with no event. -/
theorem c6_message_diffing :
    (∀ env st ch, lookupKV st.lastMessageIds ch.id_i = some 100 →
      env.fetchMessages ch.id_i = Except.ok [⟨98⟩, ⟨101⟩, ⟨102⟩, ⟨105⟩] →
      (processChatMessages env st ch).2 =
        [Event.NewMessages ch.id_i [101, 102, 105]] ∧
      lookupKV (processChatMessages env st ch).1.lastMessageIds ch.id_i =
        some 105) ∧
    (∀ env st ch, env.fetchMessages ch.id_i = Except.ok [] →
      processChatMessages env st ch = (st, [])) ∧
    (∀ env st ch l, env.fetchMessages ch.id_i = Except.ok l → l ≠ [] →
      lookupKV st.lastMessageIds ch.id_i = none →
      processChatMessages env st ch =
        ({ st with lastMessageIds := setKV st.lastMessageIds ch.id_i (lastMsgId (sortMsgs l)) }, []) ∧
      (∀ m ∈ l, m.id ≤ lastMsgId (sortMsgs l)) ∧
      lastMsgId (sortMsgs l) ∈ l.map Msg.id) := by
  refine ⟨?_, ?_, ?_⟩
  · intro env st ch hw hf
    unfold processChatMessages
    rw [hf]
    dsimp only
    rw [if_neg (by decide), hw]
    dsimp only
    rw [if_pos (by decide), if_neg (by decide)]
    constructor
    · rfl
    · dsimp only
      rw [getChatBuyerEmail_lm, fetchProduct_lm, lookupKV_setKV_self]
      decide
  · intro env st ch hf
    unfold processChatMessages
    rw [hf]
    rfl
  · intro env st ch l hf hne hnone
    have hsne : sortMsgs l ≠ [] := by
      cases l with
      | nil => exact absurd rfl hne
      | cons a t =>
        intro hS
        have ha : a ∈ sortMsgs (a :: t) :=
          (mem_sortBy Msg.id (a :: t) a).mpr (List.mem_cons_self _ _)
        rw [hS] at ha
        cases ha
    refine ⟨?_, ?_, ?_⟩
    · unfold processChatMessages
      rw [hf]
      dsimp only
      rw [if_neg (by
        cases l with
        | nil => exact absurd rfl hne
        | cons a t => simp)]
      rw [hnone]
    · intro m hm
      exact le_lastKey_of_sorted Msg.id (sortMsgs l) (sortedByKey_sortBy Msg.id l)
        m ((mem_sortBy Msg.id l m).mpr hm)
    · obtain ⟨y, hy, heq⟩ := lastKey_mem Msg.id (sortMsgs l) hsne
      rw [List.mem_map]
      exact ⟨y, (mem_sortBy Msg.id l y).mp hy, heq.symm⟩

/-- Witness state for C6: chat 42 holds watermark 100. -/
def stC6w : MonitorState := ⟨true, true, some 1, 1, [(42, 100)], [], []⟩

/-- Witness environment for C6: chat 42 gets ids 98, 101, 102, 105; chat 43
has no messages; chat 44 (untracked) has the single message 7. -/
def envC6w : Env :=
  { token := .ok ()
    salesResp := .error ()
    chatsResp := .error ()
    fetchMessages := fun c =>
      if c = 42 then .ok [⟨98⟩, ⟨101⟩, ⟨102⟩, ⟨105⟩]
      else if c = 43 then .ok [] else .ok [⟨7⟩]
    fetchInvoice := fun _ => .error ()
    fetchProductResp := fun _ => .error () }

theorem c6_witness :
    ((processChatMessages envC6w stC6w ⟨42, 7⟩).2 =
      [Event.NewMessages 42 [101, 102, 105]] ∧
     lookupKV (processChatMessages envC6w stC6w ⟨42, 7⟩).1.lastMessageIds 42 =
      some 105) ∧
    processChatMessages envC6w stC6w ⟨43, 7⟩ = (stC6w, []) ∧
    lookupKV (processChatMessages envC6w stC6w ⟨44, 7⟩).1.lastMessageIds 44 =
      some 7 := by
  refine ⟨c6_message_diffing.1 envC6w stC6w ⟨42, 7⟩ rfl rfl,
    c6_message_diffing.2.1 envC6w stC6w ⟨43, 7⟩ rfl, ?_⟩
  have h := c6_message_diffing.2.2 envC6w stC6w ⟨44, 7⟩ [⟨7⟩] rfl (by decide) rfl
  rw [h.1]
  decide

theorem processChatMessages_salesIrrel (tok : Except Unit Unit)
    (sr1 sr2 : Except Unit SalesResponse) (cr : Except Unit (List Chat))
    (fm : Nat → Except Unit (List Msg)) (fi : Nat → Except Unit PurchaseInfo)
    (fp : Nat → Except Unit (Option String)) (st : MonitorState) (c : Chat) :
    processChatMessages ⟨tok, sr1, cr, fm, fi, fp⟩ st c =
      processChatMessages ⟨tok, sr2, cr, fm, fi, fp⟩ st c := rfl

theorem processNewChat_salesIrrel (tok : Except Unit Unit)
    (sr1 sr2 : Except Unit SalesResponse) (cr : Except Unit (List Chat))
    (fm : Nat → Except Unit (List Msg)) (fi : Nat → Except Unit PurchaseInfo)
    (fp : Nat → Except Unit (Option String)) (st : MonitorState) (c : Chat) :
    processNewChat ⟨tok, sr1, cr, fm, fi, fp⟩ st c =
      processNewChat ⟨tok, sr2, cr, fm, fi, fp⟩ st c := rfl

theorem messageLoop_salesIrrel (tok : Except Unit Unit)
    (sr1 sr2 : Except Unit SalesResponse) (cr : Except Unit (List Chat))
    (fm : Nat → Except Unit (List Msg)) (fi : Nat → Except Unit PurchaseInfo)
    (fp : Nat → Except Unit (Option String)) (st : MonitorState)
    (cs : List Chat) :
    messageLoop ⟨tok, sr1, cr, fm, fi, fp⟩ st cs =
      messageLoop ⟨tok, sr2, cr, fm, fi, fp⟩ st cs := by
  induction cs generalizing st with
  | nil => rfl
  | cons c rest ih =>
    simp only [messageLoop]
    rw [processChatMessages_salesIrrel tok sr1 sr2 cr fm fi fp st c, ih]

theorem newChatLoop_salesIrrel (tok : Except Unit Unit)
    (sr1 sr2 : Except Unit SalesResponse) (cr : Except Unit (List Chat))
    (fm : Nat → Except Unit (List Msg)) (fi : Nat → Except Unit PurchaseInfo)
    (fp : Nat → Except Unit (Option String)) (st : MonitorState)
    (cs : List Chat) :
    newChatLoop ⟨tok, sr1, cr, fm, fi, fp⟩ st cs =
      newChatLoop ⟨tok, sr2, cr, fm, fi, fp⟩ st cs := by
  induction cs generalizing st with
  | nil => rfl
  | cons c rest ih =>
    simp only [newChatLoop]
    rw [processNewChat_salesIrrel tok sr1 sr2 cr fm fi fp st c, ih]

theorem pollChats_salesIrrel (tok : Except Unit Unit)
    (sr1 sr2 : Except Unit SalesResponse) (cr : Except Unit (List Chat))
    (fm : Nat → Except Unit (List Msg)) (fi : Nat → Except Unit PurchaseInfo)
    (fp : Nat → Except Unit (Option String)) (st : MonitorState)
    (chats : List Chat) :
    pollChats ⟨tok, sr1, cr, fm, fi, fp⟩ st chats =
      pollChats ⟨tok, sr2, cr, fm, fi, fp⟩ st chats := by
  unfold pollChats
  dsimp only
  rw [newChatLoop_salesIrrel tok sr1 sr2 cr fm fi fp st,
    messageLoop_salesIrrel tok sr1 sr2 cr fm fi fp]

/-- C9: failure isolation within a poll cycle: a failed sales fetch makes the
order step a no-op (the cycle behaves exactly as with a benign empty sales
response, so the chat-count diff and message diffs still run); a failed
message fetch for one chat makes exactly that chat's step a no-op, leaving
the remaining chats processed identically; and a running monitor always
schedules the next cycle. -/
theorem c9_isolation :
    (∀ st env, env.salesResp = Except.error () →
      poll st env = poll st { env with salesResp := Except.ok ⟨0, []⟩ }) ∧
    (∀ env st pre c post, env.fetchMessages c.id_i = Except.error () →
      messageLoop env st (pre ++ c :: post) = messageLoop env st (pre ++ post)) ∧
    (∀ st env, st.isRunning = true → (poll st env).2.2 = true) := by
  refine ⟨?_, ?_, ?_⟩
  · intro st env herr
    obtain ⟨tok, sr, cr, fm, fi, fp⟩ := env
    dsimp only at herr
    subst herr
    dsimp only
    have h1 : checkNewOrders st ⟨tok, Except.error (), cr, fm, fi, fp⟩ =
        (st, []) := rfl
    have h2 : checkNewOrders st ⟨tok, Except.ok ⟨0, []⟩, cr, fm, fi, fp⟩ =
        (st, []) := rfl
    have hbody : pollBody st ⟨tok, Except.error (), cr, fm, fi, fp⟩ =
        pollBody st ⟨tok, Except.ok ⟨0, []⟩, cr, fm, fi, fp⟩ := by
      unfold pollBody
      dsimp only
      cases tok with
      | error e => rfl
      | ok u =>
        dsimp only
        rw [h1, h2]
        cases cr with
        | error e => rfl
        | ok chats =>
          dsimp only
          rw [pollChats_salesIrrel (Except.ok u) (Except.error ())
            (Except.ok ⟨0, []⟩) (Except.ok chats) fm fi fp st chats]
    unfold poll
    rw [hbody]
  · intro env st pre c post herr
    induction pre generalizing st with
    | nil =>
      simp only [List.nil_append, messageLoop]
      have hstep : processChatMessages env st c = (st, []) := by
        unfold processChatMessages
        rw [herr]
      rw [hstep]
      dsimp only
      rw [List.nil_append]
    | cons a pre2 ih =>
      simp only [List.cons_append, messageLoop, List.append_eq]
      rw [ih]
  · intro st env h
    exact poll_sched st env h

/-- Witness state for C9. -/
def stC9w : MonitorState := ⟨true, true, some 1, 0, [], [], []⟩

/-- Witness environment for C9: the sales fetch fails, the chat fetch
succeeds, and every message fetch fails. -/
def envC9w : Env :=
  { token := .ok ()
    salesResp := .error ()
    chatsResp := .ok []
    fetchMessages := fun _ => .error ()
    fetchInvoice := fun _ => .error ()
    fetchProductResp := fun _ => .error () }

theorem c9_witness :
    poll stC9w envC9w =
      poll stC9w { envC9w with salesResp := Except.ok ⟨0, []⟩ } ∧
    messageLoop envC9w stC9w ([] ++ (⟨9, 9⟩ : Chat) :: []) =
      messageLoop envC9w stC9w ([] ++ []) ∧
    (poll stC9w envC9w).2.2 = true :=
  ⟨c9_isolation.1 stC9w envC9w rfl,
   c9_isolation.2.1 envC9w stC9w [] ⟨9, 9⟩ [] rfl,
   c9_isolation.2.2 stC9w envC9w rfl⟩

theorem getChatBuyerEmail_cached (env : Env) (st : MonitorState) (k : Nat)
    (d : InvoiceData) (hc : lookupKV st.invoiceCache k = some d)
    (hs : d.buyer_email.isSome = true) :
    getChatBuyerEmail env st k = (st, d.buyer_email) := by
  unfold getChatBuyerEmail
  rw [hc]
  dsimp only
  rw [if_pos hs]

theorem getChatBuyerEmail_nullEmail (env : Env) (st : MonitorState) (k : Nat)
    (d : InvoiceData) (hc : lookupKV st.invoiceCache k = some d)
    (hn : d.buyer_email = none) (info : PurchaseInfo)
    (hf : env.fetchInvoice k = Except.ok info) :
    getChatBuyerEmail env st k =
      ({ st with invoiceCache := setKV st.invoiceCache k ⟨k, info.email, none, none⟩ },
       info.email) := by
  unfold getChatBuyerEmail
  rw [hc]
  dsimp only
  rw [hn, if_neg (by decide), hf]

theorem getChatBuyerEmail_nullEmail_err (env : Env) (st : MonitorState)
    (k : Nat) (d : InvoiceData) (hc : lookupKV st.invoiceCache k = some d)
    (hn : d.buyer_email = none) (hf : env.fetchInvoice k = Except.error ()) :
    getChatBuyerEmail env st k = (st, none) := by
  unfold getChatBuyerEmail
  rw [hc]
  dsimp only
  rw [hn, if_neg (by decide), hf]

/-- Counterexample state for C7: initialized monitor, invoice watermark 10. -/
def stC7 : MonitorState := ⟨true, true, some 10, 0, [], [], []⟩

/-- Counterexample environment for C7: sale 11 is new and its invoice-detail
fetch fails. -/
def envC7 : Env :=
  { token := .ok ()
    salesResp := .ok ⟨0, [⟨11⟩]⟩
    chatsResp := .error ()
    fetchMessages := fun _ => .error ()
    fetchInvoice := fun _ => .error ()
    fetchProductResp := fun _ => .error () }

/-- C7 fails on the code in its no-caching half: the NewOrder event is indeed
emitted with null enrichment, but an invoice-cache entry (with null
fields) is written even though the fetch failed. -/
theorem c7_counterexample :
    (checkNewOrders stC7 envC7).2 = [Event.NewOrder 11 none none] ∧
    lookupKV (checkNewOrders stC7 envC7).1.invoiceCache 11 =
      some ⟨11, none, none, none⟩ := by decide

/-- C7 as amended: when the invoice-detail fetch for a newly detected sale
fails, the NewOrder event is still emitted with null enrichment fields,
but an entry with null buyer email is cached for that invoice; a later
buyer-email lookup for that invoice nevertheless bypasses the null-email
entry, performs the fetch again and overwrites the entry on success. -/
theorem c7_amended (st : MonitorState) (env : Env) (s : Sale) (w : Nat)
    (hInit : st.isInitialized = true) (hw : st.lastSaleInvoiceId = some w)
    (hgt : w < s.invoice_id) (hs : env.salesResp = Except.ok ⟨0, [s]⟩)
    (hc : lookupKV st.invoiceCache s.invoice_id = none)
    (hf : env.fetchInvoice s.invoice_id = Except.error ()) :
    (checkNewOrders st env).2 = [Event.NewOrder s.invoice_id none none] ∧
    lookupKV (checkNewOrders st env).1.invoiceCache s.invoice_id =
      some ⟨s.invoice_id, none, none, none⟩ ∧
    (∀ env2 info, env2.fetchInvoice s.invoice_id = Except.ok info →
      (getChatBuyerEmail env2 (checkNewOrders st env).1 s.invoice_id).2 =
        info.email ∧
      lookupKV (getChatBuyerEmail env2 (checkNewOrders st env).1
          s.invoice_id).1.invoiceCache s.invoice_id =
        some ⟨s.invoice_id, info.email, none, none⟩) := by
  have hps : processSale env st s =
      ({ st with invoiceCache := setKV st.invoiceCache s.invoice_id ⟨s.invoice_id, none, none, none⟩ },
       Event.NewOrder s.invoice_id none none) := by
    unfold processSale
    rw [hc]
    dsimp only
    rw [hf]
  have hck : checkNewOrders st env =
      ({ st with invoiceCache := setKV st.invoiceCache s.invoice_id ⟨s.invoice_id, none, none, none⟩, lastSaleInvoiceId := some (listMax ((sortSales (List.filter (fun x => w < x.invoice_id) [s])).map Sale.invoice_id)) },
       [Event.NewOrder s.invoice_id none none]) := by
    unfold checkNewOrders
    rw [hs]
    dsimp only
    rw [if_neg (by decide), if_neg (by simp), hw]
    dsimp only
    rw [if_pos (by
      refine ⟨hInit, ?_⟩
      simpa [listMax] using hgt)]
    rw [show List.filter (fun x => decide (w < x.invoice_id)) [s] = [s] from by
      simp [hgt]]
    simp only [processSales, hps]
  rw [hck]
  refine ⟨rfl, ?_, ?_⟩
  · exact lookupKV_setKV_self _ _ _
  · intro env2 info hf2
    have hmid : lookupKV ({ st with invoiceCache := setKV st.invoiceCache s.invoice_id ⟨s.invoice_id, none, none, none⟩, lastSaleInvoiceId := some (listMax ((sortSales (List.filter (fun x => w < x.invoice_id) [s])).map Sale.invoice_id)) } : MonitorState).invoiceCache s.invoice_id = some ⟨s.invoice_id, none, none, none⟩ :=
      lookupKV_setKV_self _ _ _
    have hget := getChatBuyerEmail_nullEmail env2 _ s.invoice_id
      ⟨s.invoice_id, none, none, none⟩ hmid rfl info hf2
    rw [hget]
    exact ⟨rfl, lookupKV_setKV_self _ _ _⟩

/-- Witness state for the amended C7. -/
def stC7w : MonitorState := ⟨true, true, some 10, 0, [], [], []⟩

/-- Witness environment for the amended C7 (enrichment fetch fails). -/
def envC7w : Env :=
  { token := .ok ()
    salesResp := .ok ⟨0, [⟨11⟩]⟩
    chatsResp := .error ()
    fetchMessages := fun _ => .error ()
    fetchInvoice := fun _ => .error ()
    fetchProductResp := fun _ => .error () }

/-- Later environment for the amended C7, whose enrichment fetch succeeds. -/
def envC7w2 : Env :=
  { token := .ok ()
    salesResp := .error ()
    chatsResp := .error ()
    fetchMessages := fun _ => .error ()
    fetchInvoice := fun _ => .ok ⟨some ("x@y"), none, none⟩
    fetchProductResp := fun _ => .error () }

theorem c7_amended_witness :
    (checkNewOrders stC7w envC7w).2 = [Event.NewOrder 11 none none] ∧
    lookupKV (checkNewOrders stC7w envC7w).1.invoiceCache 11 =
      some ⟨11, none, none, none⟩ ∧
    (getChatBuyerEmail envC7w2 (checkNewOrders stC7w envC7w).1 11).2 =
      some ("x@y") := by
  have h := c7_amended stC7w envC7w ⟨11⟩ 10 rfl rfl (by decide) rfl rfl rfl
  exact ⟨h.1, h.2.1, (h.2.2 envC7w2 ⟨some ("x@y"), none, none⟩ rfl).1⟩

/-- Counterexample state for C8. -/
def stC8 : MonitorState := ⟨true, true, some 1, 0, [], [], []⟩

/-- Counterexample environment for C8: the product fetch fails. -/
def envC8 : Env :=
  { token := .ok ()
    salesResp := .error ()
    chatsResp := .error ()
    fetchMessages := fun _ => .error ()
    fetchInvoice := fun _ => .error ()
    fetchProductResp := fun _ => .error () }

/-- C8 fails on the code: on a failed product fetch the lookup rejects (it
does not return the fallback string), though indeed nothing is cached. -/
theorem c8_counterexample :
    (fetchProduct envC8 stC8 7).2 = Except.error () ∧
    (fetchProduct envC8 stC8 7).2 ≠ Except.ok ("Product " ++ toString 7) ∧
    lookupKV (fetchProduct envC8 stC8 7).1.productCache 7 = none := by
  refine ⟨rfl, ?_, rfl⟩
  intro h
  rw [show (fetchProduct envC8 stC8 7).2 = Except.error () from rfl] at h
  exact Except.noConfusion h

/-- C8 as amended: the product lookup returns the cached name when present
and caches the name on a successful fetch; on a failed fetch it throws
(callers fall back to a null product name) without caching, so a later
poll retries; the fallback string Product-id is produced when a successful
response lacks a name, and that fallback is itself cached. -/
theorem c8_amended :
    (∀ env st pid name, lookupKV st.productCache pid = some name →
      fetchProduct env st pid = (st, Except.ok name)) ∧
    (∀ env st pid name, lookupKV st.productCache pid = none →
      env.fetchProductResp pid = Except.ok (some name) →
      fetchProduct env st pid =
        ({ st with productCache := setKV st.productCache pid name },
         Except.ok name)) ∧
    (∀ env st pid, lookupKV st.productCache pid = none →
      env.fetchProductResp pid = Except.error () →
      fetchProduct env st pid = (st, Except.error ())) ∧
    (∀ env st pid, lookupKV st.productCache pid = none →
      env.fetchProductResp pid = Except.ok none →
      fetchProduct env st pid =
        ({ st with productCache := setKV st.productCache pid ("Product " ++ toString pid) },
         Except.ok ("Product " ++ toString pid))) := by
  refine ⟨?_, ?_, ?_, ?_⟩
  · intro env st pid name hc
    unfold fetchProduct
    rw [hc]
  · intro env st pid name hc hf
    unfold fetchProduct
    rw [hc]
    dsimp only
    rw [hf]
  · intro env st pid hc hf
    unfold fetchProduct
    rw [hc]
    dsimp only
    rw [hf]
  · intro env st pid hc hf
    unfold fetchProduct
    rw [hc]
    dsimp only
    rw [hf]

/-- Witness state for the amended C8: product 3 already cached. -/
def stC8w : MonitorState := ⟨true, true, some 1, 0, [], [(3, "Cached")], []⟩

/-- Witness environment for the amended C8: product 5 fetches fine, product 6
fetches with a missing name, anything else fails. -/
def envC8w : Env :=
  { token := .ok ()
    salesResp := .error ()
    chatsResp := .error ()
    fetchMessages := fun _ => .error ()
    fetchInvoice := fun _ => .error ()
    fetchProductResp := fun p =>
      if p = 5 then .ok (some ("Fresh"))
      else if p = 6 then .ok none else .error () }

theorem c8_amended_witness :
    fetchProduct envC8w stC8w 3 = (stC8w, Except.ok ("Cached")) ∧
    fetchProduct envC8w stC8w 5 =
      ({ stC8w with productCache := setKV stC8w.productCache 5 ("Fresh") },
       Except.ok ("Fresh")) ∧
    fetchProduct envC8w stC8w 7 = (stC8w, Except.error ()) ∧
    fetchProduct envC8w stC8w 6 =
      ({ stC8w with productCache := setKV stC8w.productCache 6 ("Product " ++ toString 6) },
       Except.ok ("Product " ++ toString 6)) :=
  ⟨c8_amended.1 envC8w stC8w 3 ("Cached") rfl,
   c8_amended.2.1 envC8w stC8w 5 ("Fresh") rfl rfl,
   c8_amended.2.2.1 envC8w stC8w 7 rfl rfl,
   c8_amended.2.2.2 envC8w stC8w 6 rfl rfl⟩

/-- C10: the buyer-email helper returns the cached value (independently of
the environment, i.e. without fetching) exactly when a cache entry with a
non-null email exists; a cached entry with null email is bypassed: the
fetch runs again, overwriting the entry on success, and returns null
without touching the cache on failure. -/
theorem c10_null_email_bypass :
    (∀ env env2 st k d, lookupKV st.invoiceCache k = some d →
      d.buyer_email.isSome = true →
      getChatBuyerEmail env st k = (st, d.buyer_email) ∧
      getChatBuyerEmail env st k = getChatBuyerEmail env2 st k) ∧
    (∀ env st k d info, lookupKV st.invoiceCache k = some d →
      d.buyer_email = none → env.fetchInvoice k = Except.ok info →
      getChatBuyerEmail env st k =
        ({ st with invoiceCache := setKV st.invoiceCache k ⟨k, info.email, none, none⟩ },
         info.email)) ∧
    (∀ env st k d, lookupKV st.invoiceCache k = some d →
      d.buyer_email = none → env.fetchInvoice k = Except.error () →
      getChatBuyerEmail env st k = (st, none)) := by
  refine ⟨?_, ?_, ?_⟩
  · intro env env2 st k d hc hs
    have h1 := getChatBuyerEmail_cached env st k d hc hs
    have h2 := getChatBuyerEmail_cached env2 st k d hc hs
    exact ⟨h1, h1.trans h2.symm⟩
  · intro env st k d info hc hn hf
    exact getChatBuyerEmail_nullEmail env st k d hc hn info hf
  · intro env st k d hc hn hf
    exact getChatBuyerEmail_nullEmail_err env st k d hc hn hf

/-- Witness state for C10: invoice 8 cached with an email, invoice 9 cached
with a null email. -/
def stC10w : MonitorState :=
  ⟨true, true, some 1, 0, [], [], [(8, ⟨8, some ("a@b"), none, none⟩), (9, ⟨9, none, none, none⟩)]⟩

/-- Witness environments for C10. -/
def envC10w : Env :=
  { token := .ok ()
    salesResp := .error ()
    chatsResp := .error ()
    fetchMessages := fun _ => .error ()
    fetchInvoice := fun _ => .ok ⟨some ("c@d"), none, none⟩
    fetchProductResp := fun _ => .error () }

def envC10w2 : Env :=
  { token := .ok ()
    salesResp := .error ()
    chatsResp := .error ()
    fetchMessages := fun _ => .error ()
    fetchInvoice := fun _ => .error ()
    fetchProductResp := fun _ => .error () }

theorem c10_witness :
    (getChatBuyerEmail envC10w2 stC10w 8 = (stC10w, some ("a@b")) ∧
     getChatBuyerEmail envC10w2 stC10w 8 = getChatBuyerEmail envC10w stC10w 8) ∧
    getChatBuyerEmail envC10w stC10w 9 =
      ({ stC10w with invoiceCache := setKV stC10w.invoiceCache 9 ⟨9, some ("c@d"), none, none⟩ },
       some ("c@d")) ∧
    getChatBuyerEmail envC10w2 stC10w 9 = (stC10w, none) :=
  ⟨c10_null_email_bypass.1 envC10w2 envC10w stC10w 8 ⟨8, some ("a@b"), none, none⟩
      rfl rfl,
   c10_null_email_bypass.2.1 envC10w stC10w 9 ⟨9, none, none, none⟩
      ⟨some ("c@d"), none, none⟩ rfl rfl rfl,
   c10_null_email_bypass.2.2 envC10w2 stC10w 9 ⟨9, none, none, none⟩ rfl rfl rfl⟩

end GGSelMonitor
